import Mathlib

/-!
Verification development for the PCTWrap repository (file src/PCTWrap/problems.py).

The class PCTProblem wraps a raw pycutest problem.  Numeric arrays are embedded
as lists of rationals (idealized exact arithmetic for the double-precision
floats of the source); the special floating-point values NaN and plus/minus
infinity that the source manipulates explicitly (np.isnan, np.inf,
np.nan_to_num) are embedded by the inductive type RVal.  NumPy operations used
by the source are embedded one-to-one:
  boolean mask indexing a[mask]          -> maskSelect
  np.max(a, initial=0)                   -> npmax
  masked assignment a[mask] = b[mask]    -> npAssign
  np.logical_and / np.logical_not        -> List.zipWith and / List.map not
The lower bound -np.inf appearing in constraint bound vectors is embedded as
the bottom element of WithBot assoiated with the rationals.
-/

namespace PCTWrap

/-- A raw double-precision value as the source distinguishes them: NaN, the two
infinities, or a finite value (idealized as a rational). -/
inductive RVal where
  | nan
  | inf
  | neginf
  | fin (q : ℚ)
deriving DecidableEq, Repr

/-- Embedding of np.isnan on a scalar. -/
def RVal.isnan : RVal → Bool
  | .nan => true
  | _ => false

/-- The NaN-substitution of PCTProblem.obj, lines 96-97 of problems.py:
if np.isnan(f) then f = np.inf. -/
def nanSub (f : RVal) : RVal :=
  if f.isnan then RVal.inf else f

/-- Adding a finite (rational) value to an RVal, as the float addition
f + 1e3 * vlt of line 107 behaves on the substituted objective f. -/
def RVal.addQ : RVal → ℚ → RVal
  | .nan, _ => .nan
  | .inf, _ => .inf
  | .neginf, _ => .neginf
  | .fin q, r => .fin (q + r)

/-- The largest finite double, np.finfo(np.float64).max, exactly. -/
def FLOATMAX : ℚ := (2 ^ 53 - 1) * 2 ^ 971

/-- Embedding of np.nan_to_num with default arguments, applied to one
component: NaN becomes 0, plus infinity becomes the largest finite double,
minus infinity its negative, and finite values are unchanged. -/
def nan_to_num : RVal → ℚ
  | .nan => 0
  | .inf => FLOATMAX
  | .neginf => -FLOATMAX
  | .fin q => q

/-- NumPy boolean-mask indexing xs[mask] (mask and xs index-aligned). -/
def maskSelect (mask : List Bool) (xs : List α) : List α :=
  ((mask.zip xs).filter (fun p => p.1)).map (fun p => p.2)

/-- NumPy np.max(xs, initial=0) over rationals. -/
def npmax (xs : List ℚ) : ℚ :=
  xs.foldl max 0

/-- NumPy masked assignment a[mask] = b[mask]: positionally, the entry of a is
replaced by the entry of b exactly where the mask holds.  The replacement
values are finite floats written into an array that may hold -np.inf, hence
the WithBot coercion. -/
def npAssign : List (WithBot ℚ) → List Bool → List ℚ → List (WithBot ℚ)
  | [], _, _ => []
  | a :: as, [], _ => a :: as
  | a :: as, _ :: _, [] => a :: as
  | a :: as, m :: ms, b :: bs => (if m then (b : WithBot ℚ) else a) :: npAssign as ms bs

/-- The raw pycutest.CUTEstProblem handle, restricted to the fields and methods
problems.py accesses.  The provider methods obj(x) / obj(x, gradient=True) and
cons(x) / cons(x, gradient=True) are split into their value and gradient
components (the provider is a deterministic function of the point). -/
structure RawProblem where
  name : String
  n : ℕ
  m : ℕ
  x0 : List ℚ
  bl : List ℚ
  bu : List ℚ
  is_linear_cons : List Bool
  is_eq_cons : List Bool
  objV : List ℚ → RVal
  objG : List ℚ → List RVal
  consV : List ℚ → List ℚ
  consJ : List ℚ → List (List ℚ)

/-- scipy.optimize.Bounds as constructed on line 52. -/
structure Bounds where
  lb : List ℚ
  ub : List ℚ
deriving DecidableEq, Repr

/-- scipy.optimize.LinearConstraint: coefficient matrix with lower and upper
bound vectors (lower bounds may be -np.inf). -/
structure LinearConstraint where
  A : List (List ℚ)
  lb : List (WithBot ℚ)
  ub : List ℚ
deriving DecidableEq, Repr

/-- scipy.optimize.NonlinearConstraint: an evaluation closure with lower and
upper bound vectors. -/
structure NonlinearConstraint where
  fn : List ℚ → List ℚ
  lb : List (WithBot ℚ)
  ub : List ℚ

/-- Lines 46-52 of problems.py: the bound descriptor is None (here: none) when
every lower bound is at most -1e20 and every upper bound is at least 1e20,
otherwise Bounds(bl, bu). -/
def get_bounds (rp : RawProblem) : Option Bounds :=
  if (∀ b ∈ rp.bl, b ≤ -(10 : ℚ) ^ 20) ∧ (∀ b ∈ rp.bu, (10 : ℚ) ^ 20 ≤ b) then
    none
  else
    some { lb := rp.bl, ub := rp.bu }

/-- Lines 54-64 of problems.py: the linear-constraint group.  When some
constraint is linear, one constraint evaluation with gradient at the zero
vector yields the baseline bl and the Jacobian Al; the group is
LinearConstraint(Al[is_linear], lbl[is_linear], -bl[is_linear]) where lbl is
-np.inf everywhere except at equality rows, which receive -bl. -/
def get_linear (rp : RawProblem) : LinearConstraint :=
  if rp.is_linear_cons.any id then
    let b0 := rp.consV (List.replicate rp.n 0)
    let A0 := rp.consJ (List.replicate rp.n 0)
    let lbl0 : List (WithBot ℚ) := List.replicate rp.m ⊥
    let lbl1 := npAssign lbl0 rp.is_eq_cons (b0.map (fun v => -v))
    { A := maskSelect rp.is_linear_cons A0,
      lb := maskSelect rp.is_linear_cons lbl1,
      ub := (maskSelect rp.is_linear_cons b0).map (fun v => -v) }
  else
    { A := [[]], lb := [], ub := [] }

/-- Lines 66-75 of problems.py: the nonlinear-constraint group, present only
when not every constraint is linear: a closure restricting the constraint
evaluator to nonlinear rows, lower bounds 0 at equality rows and -np.inf at
inequality rows, upper bounds 0. -/
def get_nonlinear (rp : RawProblem) : Option NonlinearConstraint :=
  if rp.is_linear_cons.all id then
    none
  else
    let is_nl := rp.is_linear_cons.map not
    let lbn0 : List (WithBot ℚ) := List.replicate rp.m ⊥
    let lbn1 := npAssign lbn0 rp.is_eq_cons (List.replicate rp.m 0)
    let lbn := maskSelect is_nl lbn1
    some { fn := fun x => maskSelect is_nl (rp.consV x),
           lb := lbn,
           ub := lbn.map (fun _ => (0 : ℚ)) }

/-- PCTProblem.get_constraints: the bound descriptor together with the
constraint list, whose first entry is always the linear group and whose
optional second entry is the nonlinear group. -/
def get_constraints (rp : RawProblem) :
    Option Bounds × LinearConstraint × Option NonlinearConstraint :=
  (get_bounds rp, get_linear rp, get_nonlinear rp)

/-- The immutable part of a constructed PCTProblem: the raw handle, the copied
identity fields, and the classified constraints stored by the constructor. -/
structure PCTProblem where
  raw : RawProblem
  name : String
  n : ℕ
  x0 : List ℚ
  bounds : Option Bounds
  linCtr : LinearConstraint
  nlCtr : Option NonlinearConstraint

/-- PCTProblem.__init__ (lines 18-29): copy name, n, x0, classify the
constraints once; the history lists start empty (see PCTState.initState). -/
def PCTProblem.ofRaw (rp : RawProblem) : PCTProblem :=
  { raw := rp,
    name := rp.name,
    n := rp.n,
    x0 := rp.x0,
    bounds := (get_constraints rp).1,
    linCtr := (get_constraints rp).2.1,
    nlCtr := (get_constraints rp).2.2 }

/-- The mutable part of a PCTProblem: the two history lists. -/
structure PCTState where
  objectives : List RVal
  residuals : List RVal
deriving DecidableEq, Repr

/-- The history state set up by PCTProblem.__init__ (lines 27-28). -/
def initState : PCTState :=
  { objectives := [], residuals := [] }

/-- PCTProblem.clear_memory (lines 31-36): both history lists are emptied. -/
def clear_memory (_s : PCTState) : PCTState :=
  { objectives := [], residuals := [] }

/-- The call self.cons(x) made by obj on line 103 (index None, no gradient):
a pure passthrough to the provider constraint evaluator. -/
def PCTProblem.cons (p : PCTProblem) (x : List ℚ) : List ℚ :=
  p.raw.consV x

/-- Line 135: the nonlinear mask np.logical_not(is_linear_cons). -/
def PCTProblem.is_nl (p : PCTProblem) : List Bool :=
  p.raw.is_linear_cons.map not

/-- Lines 136-137: the linear-equality mask. -/
def PCTProblem.is_l_eq (p : PCTProblem) : List Bool :=
  List.zipWith and p.raw.is_linear_cons p.raw.is_eq_cons

/-- Lines 138-139: the linear-inequality mask
np.logical_and(np.logical_not(is_l_eq), is_linear_cons). -/
def PCTProblem.is_l_ineq (p : PCTProblem) : List Bool :=
  List.zipWith and (p.is_l_eq.map not) p.raw.is_linear_cons

/-- Line 140: the nonlinear-equality mask. -/
def PCTProblem.is_nl_eq (p : PCTProblem) : List Bool :=
  List.zipWith and p.is_nl p.raw.is_eq_cons

/-- Line 141: the nonlinear-inequality mask
np.logical_and(np.logical_not(is_nl_eq), is_nl). -/
def PCTProblem.is_nl_ineq (p : PCTProblem) : List Bool :=
  List.zipWith and (p.is_nl_eq.map not) p.is_nl

/-- PCTProblem.ctr_violations (lines 127-153), translated statement by
statement: running maximum over the linear-equality absolute values, then the
linear-inequality values (floored at 0 through initial=0), optionally divided
by max(1, max(abs(constraints[0].ub))), then folded with the
nonlinear-equality absolute values and the nonlinear-inequality values. -/
def PCTProblem.ctr_violations (p : PCTProblem) (cv : List ℚ)
    (norm_linear_violation : Bool) : ℚ :=
  let vlt1 := npmax ((maskSelect p.is_l_eq cv).map (fun c => |c|))
  let vlt2 := max vlt1 (npmax (maskSelect p.is_l_ineq cv))
  let vlt3 :=
    if norm_linear_violation then
      vlt2 / max 1 (npmax (p.linCtr.ub.map (fun c => |c|)))
    else
      vlt2
  let vlt4 := max vlt3 (npmax ((maskSelect p.is_nl_eq cv).map (fun c => |c|)))
  max vlt4 (npmax (maskSelect p.is_nl_ineq cv))

/-- PCTProblem.obj (lines 79-114): evaluate the objective (and, if requested,
the gradient run through np.nan_to_num), append the raw objective value to the
objectives history, substitute NaN by np.inf, then append the residual: for a
constrained problem np.inf when the violation exceeds 1e-2 and otherwise
f + 1e3 * violation, and for an unconstrained problem the substituted
objective itself.  Returns the substituted objective and the processed
gradient together with the new history state. -/
def PCTProblem.obj (p : PCTProblem) (s : PCTState) (x : List ℚ)
    (gradient : Bool) (norm_linear_violation : Bool) :
    (RVal × Option (List ℚ)) × PCTState :=
  let fraw := p.raw.objV x
  let gOut : Option (List ℚ) :=
    if gradient then some ((p.raw.objG x).map nan_to_num) else none
  let s1 : PCTState := { s with objectives := s.objectives ++ [fraw] }
  let f := nanSub fraw
  let s2 : PCTState :=
    if 0 < p.raw.m then
      let vlt := p.ctr_violations (p.cons x) norm_linear_violation
      if 1 / 100 < vlt then
        { s1 with residuals := s1.residuals ++ [RVal.inf] }
      else
        { s1 with residuals := s1.residuals ++ [f.addQ (1000 * vlt)] }
    else
      { s1 with residuals := s1.residuals ++ [f] }
  ((f, gOut), s2)

/-- The states of the history lists reachable over the lifecycle of one
PCTProblem: the construction state, followed by any sequence of obj calls and
clear_memory calls. -/
inductive Reachable (p : PCTProblem) : PCTState → Prop where
  | construct : Reachable p initState
  | objStep (s : PCTState) (x : List ℚ) (g norm : Bool) :
      Reachable p s → Reachable p ((p.obj s x g norm).2)
  | clearStep (s : PCTState) :
      Reachable p s → Reachable p (clear_memory s)

/-- The normalized violation measure as the specification words it, for
comparison with the code translation ctr_violations: the running maximum over
the linear-equality absolute values and the linear-inequality positive parts,
this combined linear maximum divided by max(1, max(abs(linear upper bounds))),
then folded with the nonlinear-equality absolute values and the
nonlinear-inequality positive parts, the normalization not applied to them. -/
def violation_spec_normalized (p : PCTProblem) (cv : List ℚ) : ℚ :=
  max
    (max
      ((max (npmax ((maskSelect p.is_l_eq cv).map (fun c => |c|)))
            (npmax ((maskSelect p.is_l_ineq cv).map (fun c => max c 0))))
        / max 1 (npmax (p.linCtr.ub.map (fun c => |c|))))
      (npmax ((maskSelect p.is_nl_eq cv).map (fun c => |c|))))
    (npmax ((maskSelect p.is_nl_ineq cv).map (fun c => max c 0)))

/-- The linear-constraint group as the specification words it, for comparison
with the code translation get_linear: the coefficient matrix is the Jacobian
at zero restricted to linear rows; a linear equality row receives lower =
upper = the negative of its baseline value at zero, a linear inequality row
receives that upper bound and lower bound -np.inf. -/
def linearGroupSpec (rp : RawProblem) : LinearConstraint :=
  { A := maskSelect rp.is_linear_cons (rp.consJ (List.replicate rp.n 0)),
    lb := maskSelect rp.is_linear_cons
      (List.zipWith (fun e v => if e then ((-v : ℚ) : WithBot ℚ) else ⊥)
        rp.is_eq_cons (rp.consV (List.replicate rp.n 0))),
    ub := (maskSelect rp.is_linear_cons (rp.consV (List.replicate rp.n 0))).map
      (fun v => -v) }

/-- A concrete raw problem: two variables, free bounds at the 1e20 sentinel,
one linear equality constraint c(x) = x1 + x2 - 1 (the constraint
x1 + x2 = 1), whose baseline value at the zero vector is -1. -/
def exRaw : RawProblem :=
  { name := "EXLINEQ",
    n := 2,
    m := 1,
    x0 := [0, 0],
    bl := [-(10 : ℚ) ^ 20, -(10 : ℚ) ^ 20],
    bu := [(10 : ℚ) ^ 20, (10 : ℚ) ^ 20],
    is_linear_cons := [true],
    is_eq_cons := [true],
    objV := fun _ => RVal.fin 0,
    objG := fun _ => [RVal.fin 0, RVal.fin 0],
    consV := fun x => [x.getD 0 0 + x.getD 1 0 - 1],
    consJ := fun _ => [[1, 1]] }

/-- The wrapped concrete problem. -/
def exP : PCTProblem :=
  PCTProblem.ofRaw exRaw

/-- A concrete unconstrained raw problem whose objective evaluates to NaN
everywhere. -/
def nanRaw : RawProblem :=
  { name := "EXNAN",
    n := 1,
    m := 0,
    x0 := [0],
    bl := [0],
    bu := [0],
    is_linear_cons := [],
    is_eq_cons := [],
    objV := fun _ => RVal.nan,
    objG := fun _ => [RVal.nan],
    consV := fun _ => [],
    consJ := fun _ => [] }

/-- The wrapped NaN problem. -/
def nanP : PCTProblem :=
  PCTProblem.ofRaw nanRaw

/-- A concrete unconstrained raw problem whose gradient has a plus-infinity
component. -/
def gradRaw : RawProblem :=
  { name := "EXGRADINF",
    n := 1,
    m := 0,
    x0 := [0],
    bl := [0],
    bu := [0],
    is_linear_cons := [],
    is_eq_cons := [],
    objV := fun _ => RVal.fin 0,
    objG := fun _ => [RVal.inf],
    consV := fun _ => [],
    consJ := fun _ => [] }

/-- The wrapped infinite-gradient problem. -/
def gradP : PCTProblem :=
  PCTProblem.ofRaw gradRaw

/-- The initial value of a left fold by max is below the result. -/
lemma le_foldl_max (l : List ℚ) (a : ℚ) : a ≤ l.foldl max a := by
  induction l generalizing a with
  | nil => exact le_refl a
  | cons x xs ih => exact le_trans (le_max_left a x) (ih (max a x))

/-- np.max(xs, initial=0) is nonnegative. -/
lemma npmax_nonneg (l : List ℚ) : 0 ≤ npmax l :=
  le_foldl_max l 0

/-- A left fold by max collapses to its initial value when every element is
below it. -/
lemma foldl_max_eq_of_le (l : List ℚ) (a : ℚ) (h : ∀ c ∈ l, c ≤ a) :
    l.foldl max a = a := by
  induction l generalizing a with
  | nil => rfl
  | cons x xs ih =>
      have hx : max a x = a := max_eq_left (h x (List.mem_cons_self x xs))
      rw [List.foldl_cons, hx]
      exact ih a (fun c hc => h c (List.mem_cons_of_mem x hc))

/-- np.max(xs, initial=0) is 0 when every element is nonpositive. -/
lemma npmax_eq_zero_of_nonpos (l : List ℚ) (h : ∀ c ∈ l, c ≤ 0) :
    npmax l = 0 :=
  foldl_max_eq_of_le l 0 h

/-- np.max(np.abs(xs), initial=0) is 0 when every element is 0. -/
lemma npmax_abs_eq_zero (l : List ℚ) (h : ∀ c ∈ l, c = 0) :
    npmax (l.map (fun c => |c|)) = 0 := by
  apply npmax_eq_zero_of_nonpos
  intro c hc
  rcases List.mem_map.mp hc with ⟨d, hd, rfl⟩
  rw [h d hd]
  simp

/-- Clipping each element at 0 does not change a left fold by max started at a
nonnegative value. -/
lemma foldl_max_posclip (l : List ℚ) (a : ℚ) (ha : 0 ≤ a) :
    (l.map (fun c => max c 0)).foldl max a = l.foldl max a := by
  induction l generalizing a with
  | nil => rfl
  | cons x xs ih =>
      rw [List.map_cons, List.foldl_cons, List.foldl_cons, ← max_assoc,
        max_eq_left (le_trans ha (le_max_left a x))]
      exact ih (max a x) (le_trans ha (le_max_left a x))

/-- np.max(xs, initial=0) already floors at 0, so clipping elements at 0 first
changes nothing. -/
lemma npmax_posclip (l : List ℚ) :
    npmax (l.map (fun c => max c 0)) = npmax l :=
  foldl_max_posclip l 0 le_rfl

/-- Closed form of ctr_violations with the normalization flag set. -/
lemma ctr_violations_true (p : PCTProblem) (cv : List ℚ) :
    p.ctr_violations cv true =
      max
        (max
          ((max (npmax ((maskSelect p.is_l_eq cv).map (fun c => |c|)))
                (npmax (maskSelect p.is_l_ineq cv)))
            / max 1 (npmax (p.linCtr.ub.map (fun c => |c|))))
          (npmax ((maskSelect p.is_nl_eq cv).map (fun c => |c|))))
        (npmax (maskSelect p.is_nl_ineq cv)) :=
  rfl

/-- Closed form of ctr_violations with the normalization flag unset. -/
lemma ctr_violations_false (p : PCTProblem) (cv : List ℚ) :
    p.ctr_violations cv false =
      max
        (max
          (max (npmax ((maskSelect p.is_l_eq cv).map (fun c => |c|)))
               (npmax (maskSelect p.is_l_ineq cv)))
          (npmax ((maskSelect p.is_nl_eq cv).map (fun c => |c|))))
        (npmax (maskSelect p.is_nl_ineq cv)) :=
  rfl

/-- Closed form of the state returned by obj: the raw objective value is
appended to the objectives history, and one residual is appended whose value
depends on the constraint count and the violation. -/
lemma obj_state (p : PCTProblem) (s : PCTState) (x : List ℚ)
    (g norm : Bool) :
    (p.obj s x g norm).2 =
      { objectives := s.objectives ++ [p.raw.objV x],
        residuals := s.residuals ++
          [if 0 < p.raw.m then
             if 1 / 100 < p.ctr_violations (p.cons x) norm then RVal.inf
             else (nanSub (p.raw.objV x)).addQ
               (1000 * p.ctr_violations (p.cons x) norm)
           else nanSub (p.raw.objV x)] } := by
  by_cases hm : 0 < p.raw.m
  · by_cases hv : (100 : ℚ)⁻¹ < p.ctr_violations (p.cons x) norm
    · simp [PCTProblem.obj, hm, hv]
    · simp [PCTProblem.obj, hm, hv]
  · simp [PCTProblem.obj, hm]

/-- Each obj call appends exactly one entry to each history list. -/
lemma obj_lengths (p : PCTProblem) (s : PCTState) (x : List ℚ)
    (g norm : Bool) :
    ((p.obj s x g norm).2).objectives.length = s.objectives.length + 1 ∧
      ((p.obj s x g norm).2).residuals.length = s.residuals.length + 1 := by
  rw [obj_state]
  simp

/-- The masked assignment into an all-bottom array of matching length is a
zipWith of the mask with the assigned values. -/
lemma npAssign_replicate (ms : List Bool) (bs : List ℚ)
    (h : bs.length = ms.length) :
    npAssign (List.replicate ms.length (⊥ : WithBot ℚ)) ms bs =
      List.zipWith (fun m b => if m then ((b : ℚ) : WithBot ℚ) else ⊥) ms bs := by
  induction ms generalizing bs with
  | nil => simp [npAssign]
  | cons m ms ih =>
      cases bs with
      | nil => simp at h
      | cons b bs =>
          simp only [List.length_cons, List.replicate_succ, npAssign,
            List.zipWith_cons_cons]
          rw [ih bs (by simpa using h)]

/-- Mapping the second argument list before a zipWith is the zipWith of the
composed function. -/
lemma zipWith_map_arg {α β γ δ : Type} (f : α → γ → δ) (g : β → γ)
    (ms : List α) (bs : List β) :
    List.zipWith f ms (bs.map g) = List.zipWith (fun m b => f m (g b)) ms bs := by
  induction ms generalizing bs with
  | nil => simp
  | cons m ms ih =>
      cases bs with
      | nil => simp
      | cons b bs => simp [ih bs]

/-- Closed form of get_linear when some constraint is linear. -/
lemma get_linear_pos (rp : RawProblem) (hany : rp.is_linear_cons.any id = true) :
    get_linear rp =
      { A := maskSelect rp.is_linear_cons (rp.consJ (List.replicate rp.n 0)),
        lb := maskSelect rp.is_linear_cons
          (npAssign (List.replicate rp.m (⊥ : WithBot ℚ)) rp.is_eq_cons
            ((rp.consV (List.replicate rp.n 0)).map (fun v => -v))),
        ub := (maskSelect rp.is_linear_cons
          (rp.consV (List.replicate rp.n 0))).map (fun v => -v) } := by
  unfold get_linear
  rw [if_pos hany]

/-- Claim C2: for every constraint-value vector and either setting of the
normalization flag, ctr_violations returns exactly 0 whenever all
linear-equality values are 0, all linear-inequality values are nonpositive,
all nonlinear-equality values are 0 and all nonlinear-inequality values are
nonpositive; and the returned value is never negative. -/
theorem claim_C2_feasible_zero_and_nonneg (p : PCTProblem) (cv : List ℚ)
    (norm : Bool) :
    ((∀ c ∈ maskSelect p.is_l_eq cv, c = 0) →
     (∀ c ∈ maskSelect p.is_l_ineq cv, c ≤ 0) →
     (∀ c ∈ maskSelect p.is_nl_eq cv, c = 0) →
     (∀ c ∈ maskSelect p.is_nl_ineq cv, c ≤ 0) →
     p.ctr_violations cv norm = 0) ∧
    0 ≤ p.ctr_violations cv norm := by
  constructor
  · intro h1 h2 h3 h4
    cases norm with
    | false =>
        rw [ctr_violations_false, npmax_abs_eq_zero _ h1,
          npmax_eq_zero_of_nonpos _ h2, npmax_abs_eq_zero _ h3,
          npmax_eq_zero_of_nonpos _ h4]
        simp
    | true =>
        rw [ctr_violations_true, npmax_abs_eq_zero _ h1,
          npmax_eq_zero_of_nonpos _ h2, npmax_abs_eq_zero _ h3,
          npmax_eq_zero_of_nonpos _ h4]
        simp
  · cases norm with
    | false =>
        rw [ctr_violations_false]
        exact le_trans (npmax_nonneg _) (le_max_right _ _)
    | true =>
        rw [ctr_violations_true]
        exact le_trans (npmax_nonneg _) (le_max_right _ _)

/-- Witness for claim C2 at the concrete problem exP with the feasible
constraint value 0 for its single linear equality constraint. -/
theorem claim_C2_witness :
    ((∀ c ∈ maskSelect exP.is_l_eq [(0 : ℚ)], c = 0) ∧
     (∀ c ∈ maskSelect exP.is_l_ineq [(0 : ℚ)], c ≤ 0) ∧
     (∀ c ∈ maskSelect exP.is_nl_eq [(0 : ℚ)], c = 0) ∧
     (∀ c ∈ maskSelect exP.is_nl_ineq [(0 : ℚ)], c ≤ 0)) ∧
    exP.ctr_violations [(0 : ℚ)] false = 0 ∧
    0 ≤ exP.ctr_violations [(0 : ℚ)] false :=
  ⟨⟨by decide, by decide, by decide, by decide⟩,
   (claim_C2_feasible_zero_and_nonneg exP [(0 : ℚ)] false).1
     (by decide) (by decide) (by decide) (by decide),
   (claim_C2_feasible_zero_and_nonneg exP [(0 : ℚ)] false).2⟩

/-- Claim C3: for every constraint-value vector, ctr_violations with the
normalization flag set equals the measure the specification describes: the
running maximum of the linear-equality absolute values and linear-inequality
positive parts, divided as a whole by max(1, max(abs(linear upper bounds))),
then folded with the unnormalized nonlinear-equality and
nonlinear-inequality maxima. -/
theorem claim_C3_normalized_order (p : PCTProblem) (cv : List ℚ) :
    p.ctr_violations cv true = violation_spec_normalized p cv := by
  rw [ctr_violations_true, violation_spec_normalized, npmax_posclip,
    npmax_posclip]

/-- Claim C10: for every constraint-value vector, the normalized violation is
at most the unnormalized one: the divisor is at least 1 and is applied only to
the nonnegative combined linear maximum, before the nonlinear maxima are
folded in. -/
theorem claim_C10_normalized_le (p : PCTProblem) (cv : List ℚ) :
    p.ctr_violations cv true ≤ p.ctr_violations cv false := by
  rw [ctr_violations_true, ctr_violations_false]
  have hL : (0 : ℚ) ≤
      max (npmax ((maskSelect p.is_l_eq cv).map (fun c => |c|)))
          (npmax (maskSelect p.is_l_ineq cv)) :=
    le_trans (npmax_nonneg _) (le_max_left _ _)
  have hd : (1 : ℚ) ≤ max 1 (npmax (p.linCtr.ub.map (fun c => |c|))) :=
    le_max_left _ _
  exact max_le_max (max_le_max (div_le_self hL hd) le_rfl) le_rfl

/-- Claim C1: on a problem with at least one constraint, every obj call
appends exactly one entry to the residual history: np.inf when the violation
of the constraint values at x exceeds 1e-2, and otherwise the objective (after
the NaN-to-inf substitution) plus 1000 times the violation. -/
theorem claim_C1_residual_entry (p : PCTProblem) (s : PCTState) (x : List ℚ)
    (g norm : Bool) (hm : 0 < p.raw.m) :
    ((p.obj s x g norm).2).residuals =
      s.residuals ++
        [if 1 / 100 < p.ctr_violations (p.cons x) norm then RVal.inf
         else (nanSub (p.raw.objV x)).addQ
           (1000 * p.ctr_violations (p.cons x) norm)] := by
  rw [obj_state]
  simp [hm]

/-- Witness for claim C1 at the concrete problem exP (one linear equality
constraint, hence a positive constraint count) evaluated at the zero vector. -/
theorem claim_C1_witness :
    0 < exP.raw.m ∧
    ((exP.obj initState [0, 0] false false).2).residuals =
      initState.residuals ++
        [if 1 / 100 < exP.ctr_violations (exP.cons [0, 0]) false then RVal.inf
         else (nanSub (exP.raw.objV [0, 0])).addQ
           (1000 * exP.ctr_violations (exP.cons [0, 0]) false)] :=
  ⟨by decide, claim_C1_residual_entry exP initState [0, 0] false false (by decide)⟩

/-- Counterexample to claim C4 as stated: on a problem whose raw objective
evaluates to NaN, the entry appended to the objectives history is the raw NaN,
not np.inf, because line 91/95 of problems.py appends f before the
np.isnan(f) substitution of lines 96-97. -/
theorem claim_C4_counterexample :
    ((nanP.obj initState [0] false false).2).objectives = [RVal.nan] ∧
    ((nanP.obj initState [0] false false).2).objectives ≠ [RVal.inf] := by
  constructor
  · decide
  · decide

/-- Claim C4 as amended: when the raw provider returns NaN, the objectives
history receives the raw NaN value (the substitution happens only after
recording), and the objective value returned to the caller, which also enters
the residual computation, is np.inf. -/
theorem claim_C4_amended (p : PCTProblem) (s : PCTState) (x : List ℚ)
    (g norm : Bool) (h : (p.raw.objV x).isnan = true) :
    ((p.obj s x g norm).2).objectives = s.objectives ++ [RVal.nan] ∧
    (p.obj s x g norm).1.1 = RVal.inf := by
  have hx : p.raw.objV x = RVal.nan := by
    cases hv : p.raw.objV x <;> simp_all [RVal.isnan]
  constructor
  · rw [obj_state]
    rw [hx]
  · simp [PCTProblem.obj, hx, nanSub, RVal.isnan]

/-- Witness for the amended claim C4 at the concrete NaN problem. -/
theorem claim_C4_witness :
    (nanRaw.objV [0]).isnan = true ∧
    ((nanP.obj initState [0] false false).2).objectives =
      initState.objectives ++ [RVal.nan] ∧
    (nanP.obj initState [0] false false).1.1 = RVal.inf :=
  ⟨by decide, claim_C4_amended nanP initState [0] false false (by decide)⟩

/-- Claim C5: the invariant that the objectives and residuals histories have
equal length holds on every reachable state of a problem record: it holds at
construction, every obj call appends exactly one entry to each list, and
clear_memory empties both. -/
theorem claim_C5_history_invariant (p : PCTProblem) :
    (∀ s, Reachable p s → s.objectives.length = s.residuals.length) ∧
    (∀ s (x : List ℚ) (g norm : Bool),
      ((p.obj s x g norm).2).objectives.length = s.objectives.length + 1 ∧
      ((p.obj s x g norm).2).residuals.length = s.residuals.length + 1) ∧
    (∀ s, (clear_memory s).objectives = [] ∧ (clear_memory s).residuals = []) := by
  refine ⟨?_, fun s x g norm => obj_lengths p s x g norm,
    fun s => ⟨rfl, rfl⟩⟩
  intro s hs
  induction hs with
  | construct => rfl
  | objStep s x g norm hs ih =>
      rcases obj_lengths p s x g norm with ⟨h1, h2⟩
      rw [h1, h2, ih]
  | clearStep s hs ih => rfl

/-- Witness for claim C5: a concrete reachable state of exP, produced by one
obj call followed by a clear and another obj call, satisfies the invariant. -/
theorem claim_C5_witness :
    ((exP.obj (clear_memory ((exP.obj initState [0, 0] false false).2))
        [0, 0] true false).2).objectives.length =
      ((exP.obj (clear_memory ((exP.obj initState [0, 0] false false).2))
        [0, 0] true false).2).residuals.length :=
  (claim_C5_history_invariant exP).1 _
    (Reachable.objStep _ [0, 0] true false
      (Reachable.clearStep _
        (Reachable.objStep _ [0, 0] false false Reachable.construct)))

/-- Counterexample to claim C6 as stated: a raw gradient component equal to
plus infinity is replaced by np.nan_to_num with the largest finite double,
which is not 0. -/
theorem claim_C6_counterexample :
    (gradP.obj initState [0] true false).1.2 = some [FLOATMAX] ∧
    FLOATMAX ≠ 0 :=
  ⟨rfl, by norm_num [FLOATMAX]⟩

/-- Claim C6 as amended: when the gradient is requested, the returned gradient
is the raw gradient passed through np.nan_to_num with its default arguments:
every NaN component becomes 0, every plus-infinity component becomes the
largest finite double, every minus-infinity component its negative, and
finite components are unchanged. -/
theorem claim_C6_amended (p : PCTProblem) (s : PCTState) (x : List ℚ)
    (norm : Bool) :
    (p.obj s x true norm).1.2 =
      some ((p.raw.objG x).map (fun c =>
        match c with
        | RVal.nan => (0 : ℚ)
        | RVal.inf => FLOATMAX
        | RVal.neginf => -FLOATMAX
        | RVal.fin q => q)) :=
  rfl

/-- Counterexample to claim C9 as stated: on an unconstrained problem whose
raw objective evaluates to NaN, a single obj call appends NaN to the
objectives history but np.inf to the residuals history. -/
theorem claim_C9_counterexample :
    ((nanP.obj initState [0] false false).2).objectives = [RVal.nan] ∧
    ((nanP.obj initState [0] false false).2).residuals = [RVal.inf] ∧
    ((nanP.obj initState [0] false false).2).objectives ≠
      ((nanP.obj initState [0] false false).2).residuals := by
  refine ⟨by decide, by decide, by decide⟩

/-- Claim C9 as amended: on a problem with zero constraints, a single obj call
appends the same value to the objectives and residuals histories whenever the
raw objective value is not NaN; when it is NaN, the objectives history
receives NaN and the residuals history receives np.inf. -/
theorem claim_C9_amended (p : PCTProblem) (s : PCTState) (x : List ℚ)
    (g norm : Bool) (hm : p.raw.m = 0) :
    if (p.raw.objV x).isnan then
      ((p.obj s x g norm).2).objectives = s.objectives ++ [RVal.nan] ∧
      ((p.obj s x g norm).2).residuals = s.residuals ++ [RVal.inf]
    else
      ((p.obj s x g norm).2).objectives = s.objectives ++ [p.raw.objV x] ∧
      ((p.obj s x g norm).2).residuals = s.residuals ++ [p.raw.objV x] := by
  have hm0 : ¬ 0 < p.raw.m := by omega
  cases hv : (p.raw.objV x).isnan with
  | true =>
      have hx : p.raw.objV x = RVal.nan := by
        cases hv2 : p.raw.objV x <;> simp_all [RVal.isnan]
      rw [if_pos rfl, obj_state]
      simp [hm0, hx, nanSub, RVal.isnan]
  | false =>
      have hx : nanSub (p.raw.objV x) = p.raw.objV x := by
        simp [nanSub, hv]
      rw [if_neg (by simp), obj_state]
      simp [hm0, hx]

/-- Witness for the amended claim C9 at the concrete NaN problem, which has
zero constraints. -/
theorem claim_C9_witness :
    nanP.raw.m = 0 ∧
    (if (nanP.raw.objV [0]).isnan then
      ((nanP.obj initState [0] false false).2).objectives =
        initState.objectives ++ [RVal.nan] ∧
      ((nanP.obj initState [0] false false).2).residuals =
        initState.residuals ++ [RVal.inf]
    else
      ((nanP.obj initState [0] false false).2).objectives =
        initState.objectives ++ [nanP.raw.objV [0]] ∧
      ((nanP.obj initState [0] false false).2).residuals =
        initState.residuals ++ [nanP.raw.objV [0]]) :=
  ⟨by decide, claim_C9_amended nanP initState [0] false false (by decide)⟩

/-- Claim C7: at construction (for a well-formed provider with at least one
linear constraint, with the flag and baseline arrays of length m), the linear
group equals the specification description: coefficient matrix = Jacobian at
zero restricted to linear rows, each linear equality row with lower = upper =
the negative of its baseline value at zero, each linear inequality row with
that upper bound and lower bound -np.inf. -/
theorem claim_C7_linear_group (rp : RawProblem)
    (hany : rp.is_linear_cons.any id = true)
    (heq : rp.is_eq_cons.length = rp.m)
    (hb : (rp.consV (List.replicate rp.n 0)).length = rp.m) :
    (get_constraints rp).2.1 = linearGroupSpec rp := by
  have hg : (get_constraints rp).2.1 = get_linear rp := rfl
  rw [hg, get_linear_pos rp hany]
  unfold linearGroupSpec
  congr 1
  rw [← heq, npAssign_replicate rp.is_eq_cons _ (by simp [hb, heq]),
    zipWith_map_arg]

/-- Witness for claim C7 at the concrete problem exP: its single constraint
x1 + x2 = 1 has baseline value -1 at the zero vector, so the linear group row
receives lower = upper = 1. -/
theorem claim_C7_witness :
    exRaw.is_linear_cons.any id = true ∧
    (exRaw.is_eq_cons.length = exRaw.m ∧
      (exRaw.consV (List.replicate exRaw.n 0)).length = exRaw.m) ∧
    (get_constraints exRaw).2.1 = linearGroupSpec exRaw ∧
    (get_constraints exRaw).2.1.ub = [1] ∧
    (get_constraints exRaw).2.1.lb = [((1 : ℚ) : WithBot ℚ)] :=
  ⟨rfl, ⟨rfl, rfl⟩, claim_C7_linear_group exRaw rfl rfl rfl,
   by norm_num [get_constraints, get_linear, exRaw, maskSelect, npAssign],
   by norm_num [get_constraints, get_linear, exRaw, maskSelect, npAssign]⟩

/-- Claim C8: at construction the bound descriptor is the unconstrained
sentinel (None) exactly when every lower bound is at most -1e20 and every
upper bound is at least 1e20; otherwise it is the pair of the problem's bound
vectors. -/
theorem claim_C8_bounds_sentinel (rp : RawProblem) :
    ((get_constraints rp).1 = none ↔
      ((∀ b ∈ rp.bl, b ≤ -(10 : ℚ) ^ 20) ∧ (∀ b ∈ rp.bu, (10 : ℚ) ^ 20 ≤ b))) ∧
    ((get_constraints rp).1 = none ∨
      (get_constraints rp).1 = some { lb := rp.bl, ub := rp.bu }) := by
  have hg : (get_constraints rp).1 = get_bounds rp := rfl
  rw [hg]
  unfold get_bounds
  split
  · next h => exact ⟨iff_of_true rfl h, Or.inl rfl⟩
  · next h => exact ⟨iff_of_false (by simp) h, Or.inr rfl⟩

end PCTWrap
